import Mathlib

/-!
# zest-sensor-camera-ai: frame extraction and storage (`src/main.cpp`)

A shallow embedding of `jpeg_processing` and `application` from `src/main.cpp`.

* The pointer argument `uint8_t *data` is a `Memory`: `data i` is the byte `data[i]`.  The frame
  buffer occupies the indices `0 .. N-1`, where `N` stands for `OV5640_JPEG_BUFFER_SIZE` (defined
  in the camera driver, so it is a parameter here); larger indices are the bytes that follow the
  buffer in memory.
* The marker scan keeps the list of indices it dereferences, in evaluation order of the
  short-circuit `&&` chains.
* `uint32_t` arithmetic is arithmetic modulo `2^32`; the `int` counter `jpeg_id` wraps modulo
  `2^32` in two's complement.
-/

namespace ZestCamera

/-! ## Marker scan of `jpeg_processing` (lines 98-118) -/

/-- Bytes reachable through the pointer `data`. -/
abbrev Memory := Nat → Nat

/-- Number of values of a `uint32_t`. -/
def UINT32_MOD : Nat := 4294967296

/-- Local variables of `jpeg_processing` during the scan, plus the indices read so far. -/
structure ScanState where
  i : Nat
  jpgstart : Nat
  head : Bool
  base_address : Option Nat
  length : Nat
  reads : List Nat
deriving DecidableEq, Repr

/-- The test `(data[i] == 0xFF) && (data[i + 1] == 0xD8) && (data[i + 2] == 0xFF)`:
its value and the indices it dereferences (`&&` evaluates left to right and stops at the
first false operand). -/
def start_marker_test (data : Memory) (i : Nat) : Bool × List Nat :=
  if data i = 0xFF then
    if data (i + 1) = 0xD8 then (decide (data (i + 2) = 0xFF), [i, i + 1, i + 2])
    else (false, [i, i + 1])
  else (false, [i])

/-- The test `(data[i] == 0xFF) && (data[i + 1] == 0xD9) && head`:
its value and the indices it dereferences. -/
def end_marker_test (data : Memory) (i : Nat) (head : Bool) : Bool × List Nat :=
  if data i = 0xFF then
    if data (i + 1) = 0xD9 then (head, [i, i + 1])
    else (false, [i, i + 1])
  else (false, [i])

/-- The `for` loop of `jpeg_processing`; the first argument is the number of iterations left
before `i` reaches `OV5640_JPEG_BUFFER_SIZE`.  A `break` returns without touching `i`. -/
def scan_loop (data : Memory) : Nat → ScanState → ScanState
  | 0, st => st
  | k + 1, st =>
    let c1 := start_marker_test data st.i
    let st1 : ScanState :=
      if c1.1 then
        { st with base_address := some st.i, jpgstart := st.i, head := true,
                  reads := st.reads ++ c1.2 }
      else { st with reads := st.reads ++ c1.2 }
    let c2 := end_marker_test data st.i st1.head
    let st2 : ScanState := { st1 with reads := st1.reads ++ c2.2 }
    if c2.1 then
      { st2 with length := (st.i + UINT32_MOD - st2.jpgstart + 2) % UINT32_MOD }
    else scan_loop data k { st2 with i := st.i + 1 }

/-- Initial values of the locals (`i = 0`, `jpgstart = 0`, `head = false`,
`base_address = NULL`, `length = 0`). -/
def scan_init : ScanState :=
  { i := 0, jpgstart := 0, head := false, base_address := none, length := 0, reads := [] }

/-- The marker scan of `jpeg_processing` on a buffer of capacity `N`. -/
def jpeg_scan (N : Nat) (data : Memory) : ScanState :=
  scan_loop data N scan_init

/-- A start marker `FF D8 FF` begins at index `i`. -/
def is_start (data : Memory) (i : Nat) : Prop :=
  data i = 0xFF ∧ data (i + 1) = 0xD8 ∧ data (i + 2) = 0xFF

/-- An end marker `FF D9` begins at index `i`. -/
def is_end (data : Memory) (i : Nat) : Prop :=
  data i = 0xFF ∧ data (i + 1) = 0xD9

instance (data : Memory) (i : Nat) : Decidable (is_start data i) := by
  unfold is_start; infer_instance

instance (data : Memory) (i : Nat) : Decidable (is_end data i) := by
  unfold is_end; infer_instance

/-- Memory holding the listed bytes from index 0 on, and `fill` everywhere after them. -/
def mem_of (bytes : List Nat) (fill : Nat) : Memory := fun i => bytes.getD i fill

/-- Frame of the end-to-end scenario: `00, FF D8 FF, ten payload bytes, FF D9, 00 ...`. -/
def scenario_frame : Memory :=
  mem_of [0x00, 0xFF, 0xD8, 0xFF, 1, 2, 3, 4, 5, 6, 7, 8, 9, 10, 0xFF, 0xD9] 0x00

/-- Frame with two start markers (at 0 and 3) before the only end marker (at 7). -/
def two_starts_frame : Memory :=
  mem_of [0xFF, 0xD8, 0xFF, 0xFF, 0xD8, 0xFF, 0x00, 0xFF, 0xD9] 0x00

/-- An 8-byte buffer `FF D8 FF 00 00 00 00 FF` followed in memory by the byte `D9`. -/
def trailing_ff_frame : Memory :=
  mem_of [0xFF, 0xD8, 0xFF, 0x00, 0x00, 0x00, 0x00, 0xFF, 0xD9] 0x00

/-- A 4-byte buffer `00 00 00 FF`. -/
def last_ff_frame : Memory := mem_of [0x00, 0x00, 0x00, 0xFF] 0x00

/-- A 4-byte buffer `00 00 FF D8` followed in memory by the byte `FF`. -/
def crossing_start_frame : Memory := mem_of [0x00, 0x00, 0xFF, 0xD8, 0xFF] 0x00

/-! ## Storage step of `jpeg_processing` (lines 120-165) -/

/-- Two's-complement value of a 32-bit `int` holding `x` modulo `2^32`. -/
def int32_wrap (x : Int) : Int := (x + 2147483648) % 4294967296 - 2147483648

/-- Characters produced by the `%d` conversion. -/
def format_d (x : Int) : List Char :=
  if x < 0 then '-' :: Nat.toDigits 10 x.natAbs else Nat.toDigits 10 x.toNat

/-- Characters `sprintf(filename, "/fs/jpeg_%d.jpg", jpeg_id)` produces (terminator excluded). -/
def filename_chars (jpeg_id : Int) : List Char :=
  "/fs/jpeg_".toList ++ format_d jpeg_id ++ ".jpg".toList

/-- Size of `char filename[20]`. -/
def FILENAME_SIZE : Nat := 20

/-- The path handed to `fopen`. -/
def jpeg_path (jpeg_id : Int) : String := String.mk (filename_chars jpeg_id)

/-- Files of the mounted filesystem: path to contents. -/
abbrev Files := String → Option (List Nat)

/-- The filesystem without any file. -/
def no_files : Files := fun _ => none

/-- Effect of a successful `fopen(path, "w")`: the file exists and is empty. -/
def Files.create (files : Files) (path : String) : Files :=
  fun p => if p = path then some [] else files p

/-- Effect of writing `bytes` at the end of the open file `path`. -/
def Files.append (files : Files) (path : String) (bytes : List Nat) : Files :=
  fun p => if p = path then some ((files p).getD [] ++ bytes) else files p

/-- What the C library and the filesystem answer during one call of `jpeg_processing`. -/
structure Libc where
  /-- Whether `fopen` returns a stream (`false`: it returns `NULL`). -/
  fopen_ok : Bool
  /-- Value of `errno` after a failing `fopen`. -/
  fopen_errno : Int
  /-- Number of bytes the stream can take; `fwrite` stores and returns the smaller of this
  and the requested count. -/
  fwrite_room : Nat
  /-- Value of `errno` after `fwrite`. -/
  fwrite_errno : Int
  /-- Return value of `fclose`. -/
  fclose_result : Int
  /-- Whether `opendir` returns a directory. -/
  opendir_ok : Bool
  /-- Value of `errno` after a failing `opendir`. -/
  opendir_errno : Int
  /-- Names `readdir` returns before it returns `NULL`. -/
  dir_entries : List String

/-- Library calls and console lines of `jpeg_processing` and `application`, in program order. -/
inductive Event where
  /-- Call `fopen(path, mode)`, and whether it returned a stream. -/
  | fopen (path : String) (mode : String) (ok : Bool)
  /-- Line `OK` (true) or `Fail :(` (false). -/
  | print_result (ok : Bool)
  /-- Line `error: <strerror(errno)> (<code>)` with `code = -errno`. -/
  | print_error (code : Int)
  /-- Call `fwrite(data, 1, length, f)`: the bytes requested and the count returned. -/
  | fwrite (requested : List Nat) (returned : Nat)
  /-- Line `Octets ecrits : <err>`. -/
  | print_written (err : Int)
  /-- Call `fclose(f)` and its return value (which the program drops). -/
  | fclose (result : Int)
  /-- Call `opendir(path)`, and whether it returned a directory. -/
  | opendir (path : String) (ok : Bool)
  /-- Call of mbed `error(...)`: prints the code and halts the system. -/
  | fatal_error (code : Int)
  /-- Line with one directory entry. -/
  | print_entry (name : String)
  /-- Line `JPEG <jpeg_id> stored in RAM: <jpeg_size> bytes`. -/
  | print_stored (jpeg_id : Int) (jpeg_size : Nat)
  /-- Line `Complete camera acquisition`. -/
  | print_complete
deriving DecidableEq

/-- Undefined behaviour the storage step can reach. -/
inductive Undefined where
  /-- The call `fwrite(data, 1, length, f)` with `f == NULL`. -/
  | null_stream
  /-- The call `fwrite(data, 1, length, f)` with `data == NULL` and `length > 0`. -/
  | null_source
deriving DecidableEq

/-- How a run of the program stands. -/
inductive Status where
  /-- The function returned; the dispatcher goes on. -/
  | running
  /-- The program called `error(...)`; the system is halted. -/
  | halted
  /-- The program reached undefined behaviour. -/
  | undefined_behaviour (why : Undefined)
deriving DecidableEq

/-- Result of one call of `jpeg_processing`. -/
structure ProcResult where
  status : Status
  /-- Whether `sprintf` wrote past the end of `char filename[20]`; the program does not
  check this and goes on with the name it formatted. -/
  filename_overrun : Bool
  /-- The value returned (`length`). -/
  length : Nat
  files : Files
  trace : List Event

/-- The bytes `data[0 .. count-1]` after `data = base_address`. -/
def payload_bytes (data : Memory) (base : Nat) (count : Nat) : List Nat :=
  (List.range count).map (fun k => data (base + k))

/-- The function `jpeg_processing(data)` with the global `jpeg_id`, the files of the mounted
filesystem and the answers of the C library made explicit. -/
def jpeg_processing (N : Nat) (data : Memory) (jpeg_id : Int) (files : Files) (libc : Libc) :
    ProcResult :=
  let sc := jpeg_scan N data
  -- sprintf(filename, "/fs/jpeg_%d.jpg", jpeg_id) into char filename[20], unchecked
  let overrun : Bool := decide (FILENAME_SIZE < (filename_chars jpeg_id).length + 1)
  let path := jpeg_path jpeg_id
  -- f = fopen(filename, "w"); report
  let t1 : List Event :=
    [Event.fopen path "w" libc.fopen_ok, Event.print_result libc.fopen_ok] ++
      (if libc.fopen_ok then [] else [Event.print_error (-libc.fopen_errno)])
  let files1 : Files := if libc.fopen_ok then files.create path else files
  -- int err = fwrite(data, sizeof(uint8_t), length, f)
  if libc.fopen_ok = false then
    { status := .undefined_behaviour .null_stream, filename_overrun := overrun,
      length := sc.length, files := files1, trace := t1 }
  else
    match sc.base_address, sc.length with
    | none, _ + 1 =>
      { status := .undefined_behaviour .null_source, filename_overrun := overrun,
        length := sc.length, files := files1, trace := t1 }
    | base, length =>
      let written := min libc.fwrite_room length
      let requested := payload_bytes data (base.getD 0) length
      let files2 := files1.append path (requested.take written)
      let err := int32_wrap written
      let t2 : List Event :=
        t1 ++ [Event.fwrite requested written, Event.print_written err] ++
          (if err < 0 then [Event.print_result false, Event.print_error (-libc.fwrite_errno)]
           else [])
      -- fclose(f)
      let t3 := t2 ++ [Event.fclose libc.fclose_result]
      -- DIR *d = opendir("/fs/"); report; error(...) on failure
      let t4 := t3 ++ [Event.opendir "/fs/" libc.opendir_ok, Event.print_result libc.opendir_ok]
      if libc.opendir_ok = false then
        { status := .halted, filename_overrun := overrun, length := sc.length,
          files := files2, trace := t4 ++ [Event.fatal_error (-libc.opendir_errno)] }
      else
        { status := .running, filename_overrun := overrun, length := sc.length,
          files := files2, trace := t4 ++ libc.dir_entries.map Event.print_entry }

/-! ## `application` (lines 206-220) -/

/-- Global state: the counter `jpeg_id`, the files, the console, and whether the system runs. -/
structure System where
  jpeg_id : Int
  files : Files
  console : List Event
  status : Status

/-- What one capture presents to `application`: the value of `camera_device.jpeg_picture()`,
the memory behind `ov5640_camera_data()`, and the answers of the C library. -/
structure Capture where
  jpeg_picture : Bool
  data : Memory
  libc : Libc

/-- The function `application()`, called once per frame-ready event. -/
def application (N : Nat) (sys : System) (c : Capture) : System :=
  let jpeg_id := int32_wrap (sys.jpeg_id + 1)
  if c.jpeg_picture then
    let r := jpeg_processing N c.data jpeg_id sys.files c.libc
    match r.status with
    | .running =>
      { jpeg_id := jpeg_id, files := r.files, status := .running,
        console := sys.console ++ r.trace ++
          [Event.print_stored jpeg_id r.length, Event.print_complete] }
    | st =>
      { jpeg_id := jpeg_id, files := r.files, status := st, console := sys.console ++ r.trace }
  else
    { jpeg_id := jpeg_id, files := sys.files, status := .running,
      console := sys.console ++ [Event.print_complete] }

/-- A sequence of frame-ready events: `application` runs for each one while the system runs. -/
def run (N : Nat) : List Capture → System → System
  | [], sys => sys
  | c :: cs, sys =>
    match sys.status with
    | .running => run N cs (application N sys c)
    | _ => sys

/-- State after `application_setup`: `jpeg_id = 0`, given files, empty console. -/
def boot (files : Files) : System :=
  { jpeg_id := 0, files := files, console := [], status := .running }

/-- A C library whose calls all succeed. -/
def libc_ok : Libc :=
  { fopen_ok := true, fopen_errno := 0, fwrite_room := 1000000, fwrite_errno := 0,
    fclose_result := 0, opendir_ok := true, opendir_errno := 0, dir_entries := [] }

/-- A C library whose `fopen` fails with `errno = 28`. -/
def libc_fopen_fails : Libc := { libc_ok with fopen_ok := false, fopen_errno := 28 }

/-- A C library whose stream takes only 4 bytes. -/
def libc_short_write : Libc := { libc_ok with fwrite_room := 4 }

/-- A frame without any marker. -/
def blank_frame : Memory := mem_of [] 0x00

/-- Value of a string of decimal digits. -/
def digits_value (cs : List Char) : Nat :=
  cs.foldl (fun acc c => 10 * acc + (c.toNat - 48)) 0

/-- A running system whose counter holds `INT_MAX`. -/
def counter_max_system : System :=
  { jpeg_id := 2147483647, files := no_files, console := [], status := .running }

/-- Three captures: a good frame, no payload, a frame without markers. -/
def mixed_captures : List Capture :=
  [ { jpeg_picture := true, data := scenario_frame, libc := libc_ok },
    { jpeg_picture := false, data := blank_frame, libc := libc_ok },
    { jpeg_picture := true, data := blank_frame, libc := libc_ok } ]

/-! ## Lemmas on the marker scan -/

theorem start_marker_test_true (data : Memory) (i : Nat) :
    (start_marker_test data i).1 = true ↔ is_start data i := by
  unfold start_marker_test is_start
  by_cases h0 : data i = 0xFF <;> by_cases h1 : data (i + 1) = 0xD8 <;> simp [h0, h1]

theorem end_marker_test_true (data : Memory) (i : Nat) (head : Bool) :
    (end_marker_test data i head).1 = true ↔ is_end data i ∧ head = true := by
  unfold end_marker_test is_end
  by_cases h0 : data i = 0xFF <;> by_cases h1 : data (i + 1) = 0xD9 <;> simp [h0, h1]

theorem not_start_and_end (data : Memory) (i : Nat) (hs : is_start data i) :
    ¬ is_end data i := by
  intro he
  have h1 := hs.2.1
  have h2 := he.2
  omega

theorem not_end_after_start (data : Memory) (i : Nat) (hs : is_start data i) :
    ¬ is_end data (i + 1) := by
  intro he
  have h1 := hs.2.1
  have h2 := he.1
  omega

/-- One iteration of the loop, as a case split on the two tests. -/
theorem scan_loop_succ (data : Memory) (k : Nat) (st : ScanState) :
    scan_loop data (k + 1) st =
      (let c1 := start_marker_test data st.i
       let st1 : ScanState :=
        if c1.1 then
          { st with base_address := some st.i, jpgstart := st.i, head := true,
                    reads := st.reads ++ c1.2 }
        else { st with reads := st.reads ++ c1.2 }
       let c2 := end_marker_test data st.i st1.head
       let st2 : ScanState := { st1 with reads := st1.reads ++ c2.2 }
       if c2.1 then
         { st2 with length := (st.i + UINT32_MOD - st2.jpgstart + 2) % UINT32_MOD }
       else scan_loop data k { st2 with i := st.i + 1 }) := rfl

theorem scan_loop_finds (data : Memory) (s0 s e : Nat)
    (hs0 : is_start data s0) (hfirst : ∀ j, j < s0 → ¬ is_start data j)
    (he : is_end data e) (hs0e : s0 < e) (hnoend : ∀ j, s0 < j → j < e → ¬ is_end data j)
    (hs : is_start data s) (hse : s < e) (hlast : ∀ j, s < j → j < e → ¬ is_start data j) :
    ∀ (k : Nat) (st : ScanState), e < st.i + k → st.i ≤ e →
      (st.head = false → st.i ≤ s0) →
      (st.head = true → s0 < st.i ∧ is_start data st.jpgstart ∧ st.jpgstart < st.i ∧
        (∀ j, st.jpgstart < j → j < st.i → ¬ is_start data j) ∧
        st.base_address = some st.jpgstart) →
      (scan_loop data k st).jpgstart = s ∧ (scan_loop data k st).head = true ∧
        (scan_loop data k st).base_address = some s ∧
        (scan_loop data k st).length = (e + UINT32_MOD - s + 2) % UINT32_MOD ∧
        (scan_loop data k st).i = e := by
  intro k
  induction k with
  | zero => intro st h1 h2; omega
  | succ k ih =>
    intro st hk hie hF hT
    rw [scan_loop_succ]
    by_cases hst : is_start data st.i
    · -- a start marker at the current index
      have hc1 : (start_marker_test data st.i).1 = true := (start_marker_test_true _ _).2 hst
      have hne : ¬ is_end data st.i := not_start_and_end _ _ hst
      have hc2 : (end_marker_test data st.i true).1 = false := by
        cases hc : (end_marker_test data st.i true).1
        · rfl
        · exact absurd ((end_marker_test_true _ _ _).1 hc).1 hne
      have hlt : st.i < e := by
        rcases Nat.lt_or_ge st.i e with h | h
        · exact h
        · have : st.i = e := by omega
          exact absurd (this ▸ he) hne
      have hs0i : s0 ≤ st.i := by
        cases hh : st.head
        · rcases Nat.lt_or_ge st.i s0 with h | h
          · exact absurd hst (hfirst _ h)
          · exact h
        · exact Nat.le_of_lt (hT hh).1
      simp only [hc1, if_true, hc2]
      apply ih
      · simp; omega
      · simp; omega
      · simp
      · intro _
        refine ⟨by simp; omega, by simpa using hst, by simp, ?_, by simp⟩
        intro j hj1 hj2
        simp at hj1 hj2
        omega
    · -- no start marker at the current index
      have hc1 : (start_marker_test data st.i).1 = false := by
        cases hc : (start_marker_test data st.i).1
        · rfl
        · exact absurd ((start_marker_test_true _ _).1 hc) hst
      simp only [hc1, Bool.false_eq_true, if_false]
      by_cases hen : is_end data st.i ∧ st.head = true
      · have hc2 : (end_marker_test data st.i st.head).1 = true :=
          (end_marker_test_true _ _ _).2 hen
        obtain ⟨h0, hjs, hjlt, hjno, hbase⟩ := hT hen.2
        have hie2 : st.i = e := by
          rcases Nat.lt_or_ge st.i e with h | h
          · exact absurd hen.1 (hnoend _ h0 h)
          · omega
        have hjs_eq : st.jpgstart = s := by
          rcases Nat.lt_trichotomy st.jpgstart s with h | h | h
          · exact absurd hs (hjno _ h (by omega))
          · exact h
          · exact absurd hjs (hlast _ h (by omega))
        simp only [hc2, if_true]
        refine ⟨hjs_eq, hen.2, by rw [hbase, hjs_eq], ?_, hie2⟩
        simp only [hjs_eq, hie2]
      · have hc2 : (end_marker_test data st.i st.head).1 = false := by
          cases hc : (end_marker_test data st.i st.head).1
          · rfl
          · exact absurd ((end_marker_test_true _ _ _).1 hc) hen
        have hlt : st.i < e := by
          rcases Nat.lt_or_ge st.i e with h | h
          · exact h
          · have hi : st.i = e := by omega
            have hh : st.head = true := by
              cases hh : st.head
              · have := hF hh; omega
              · rfl
            exact absurd ⟨hi ▸ he, hh⟩ hen
        simp only [hc2, Bool.false_eq_true, if_false]
        apply ih
        · simp; omega
        · simp; omega
        · intro hh
          simp at hh ⊢
          have := hF hh
          rcases Nat.lt_or_ge st.i s0 with h | h
          · omega
          · have : st.i = s0 := by omega
            exact absurd (this ▸ hs0) hst
        · intro hh
          simp at hh ⊢
          obtain ⟨h0, hjs, hjlt, hjno, hbase⟩ := hT hh
          refine ⟨by omega, hjs, by omega, ?_, hbase⟩
          intro j hj1 hj2
          rcases Nat.lt_or_ge j st.i with h | h
          · exact hjno j hj1 h
          · have : j = st.i := by omega
            rw [this]; exact hst

/-- Whenever the loop leaves a nonzero length, it stopped at an end marker that lies at least
two bytes after the start marker recorded in `jpgstart`. -/
theorem scan_loop_wellformed (data : Memory) :
    ∀ (k : Nat) (st : ScanState), st.length = 0 →
      (st.head = true → is_start data st.jpgstart ∧ st.jpgstart < st.i ∧
        st.base_address = some st.jpgstart) →
      (scan_loop data k st).length ≠ 0 →
      is_start data (scan_loop data k st).jpgstart ∧ is_end data (scan_loop data k st).i ∧
        (scan_loop data k st).jpgstart + 2 ≤ (scan_loop data k st).i ∧
        (scan_loop data k st).i < st.i + k ∧
        (scan_loop data k st).length =
          ((scan_loop data k st).i + UINT32_MOD - (scan_loop data k st).jpgstart + 2)
            % UINT32_MOD ∧
        (scan_loop data k st).base_address = some (scan_loop data k st).jpgstart := by
  intro k
  induction k with
  | zero => intro st h0 _ hne; exact absurd h0 hne
  | succ k ih =>
    intro st h0 hT
    rw [scan_loop_succ]
    by_cases hst : is_start data st.i
    · have hc1 : (start_marker_test data st.i).1 = true := (start_marker_test_true _ _).2 hst
      have hne : ¬ is_end data st.i := not_start_and_end _ _ hst
      have hc2 : (end_marker_test data st.i true).1 = false := by
        cases hc : (end_marker_test data st.i true).1
        · rfl
        · exact absurd ((end_marker_test_true _ _ _).1 hc).1 hne
      simp only [hc1, if_true, hc2, Bool.false_eq_true, if_false]
      intro hL
      have h := ih _ (by simpa using h0) (by intro _; exact ⟨by simpa using hst, by simp, by simp⟩) hL
      obtain ⟨a, b, c, d, e, f⟩ := h
      have d2 : _ < st.i + 1 + k := d
      exact ⟨a, b, c, by omega, e, f⟩
    · have hc1 : (start_marker_test data st.i).1 = false := by
        cases hc : (start_marker_test data st.i).1
        · rfl
        · exact absurd ((start_marker_test_true _ _).1 hc) hst
      simp only [hc1, Bool.false_eq_true, if_false]
      by_cases hen : is_end data st.i ∧ st.head = true
      · have hc2 : (end_marker_test data st.i st.head).1 = true :=
          (end_marker_test_true _ _ _).2 hen
        obtain ⟨hjs, hjlt, hbase⟩ := hT hen.2
        simp only [hc2, if_true]
        intro _
        refine ⟨hjs, hen.1, ?_, by omega, trivial, hbase⟩
        rcases Nat.lt_or_ge (st.jpgstart + 1) st.i with h | h
        · exact h
        · have hi : st.i = st.jpgstart + 1 := by omega
          exact absurd (hi ▸ hen.1) (not_end_after_start _ _ hjs)
      · have hc2 : (end_marker_test data st.i st.head).1 = false := by
          cases hc : (end_marker_test data st.i st.head).1
          · rfl
          · exact absurd ((end_marker_test_true _ _ _).1 hc) hen
        simp only [hc2, Bool.false_eq_true, if_false]
        intro hL
        have h := ih _ (by simpa using h0)
          (by
            intro hh
            obtain ⟨a, b, c⟩ := hT (by simpa using hh)
            exact ⟨by simpa using a, by simp; omega, by simpa using c⟩) hL
        obtain ⟨a, b, c, d, e, f⟩ := h
        have d2 : _ < st.i + 1 + k := d
        exact ⟨a, b, c, by omega, e, f⟩

/-- The scan result, when its length is nonzero. -/
theorem jpeg_scan_nonzero (N : Nat) (data : Memory) (hL : (jpeg_scan N data).length ≠ 0) :
    is_start data (jpeg_scan N data).jpgstart ∧ is_end data (jpeg_scan N data).i ∧
      (jpeg_scan N data).jpgstart + 2 ≤ (jpeg_scan N data).i ∧ (jpeg_scan N data).i < N ∧
      (jpeg_scan N data).length =
        ((jpeg_scan N data).i + UINT32_MOD - (jpeg_scan N data).jpgstart + 2) % UINT32_MOD ∧
      (jpeg_scan N data).base_address = some (jpeg_scan N data).jpgstart := by
  have h := scan_loop_wellformed data N scan_init rfl (by intro h; cases h) hL
  simpa [jpeg_scan, scan_init] using h

/-- The scan returns length 0 when no start marker is followed, below index `N`, by an end
marker (markers read in memory, so a window crossing the end of the buffer counts). -/
theorem jpeg_scan_fails_of_no_pair (N : Nat) (data : Memory)
    (hnone : ∀ s e, is_start data s → is_end data e → s < e → e < N → False) :
    (jpeg_scan N data).length = 0 := by
  by_contra hL
  obtain ⟨a, b, c, d, _, _⟩ := jpeg_scan_nonzero N data hL
  exact hnone _ _ a b (by omega) d

/-- A buffer without a start marker wholly inside it yields length 0, whatever follows the
buffer in memory. -/
theorem jpeg_scan_fails_of_no_start (N : Nat) (data : Memory)
    (hnone : ∀ j, j + 2 < N → ¬ is_start data j) :
    (jpeg_scan N data).length = 0 := by
  apply jpeg_scan_fails_of_no_pair
  intro s e hs he hse heN
  have h1 : ¬ (s + 2 < N) := fun h => hnone s h hs
  have h2 : e = s + 1 := by omega
  exact not_end_after_start data s hs (h2 ▸ he)

/-- Indices read are never forgotten by later iterations. -/
theorem scan_loop_reads_mono (data : Memory) (x : Nat) :
    ∀ (k : Nat) (st : ScanState), x ∈ st.reads → x ∈ (scan_loop data k st).reads := by
  intro k
  induction k with
  | zero => intro st h; exact h
  | succ k ih =>
    intro st h
    rw [scan_loop_succ]
    dsimp only
    split_ifs
    · simp [h]
    · apply ih; simp [h]
    · simp [h]
    · apply ih; simp [h]

/-- The end-marker test at an index holding `FF` dereferences the next index. -/
theorem end_marker_test_reads (data : Memory) (i : Nat) (head : Bool) (h : data i = 0xFF) :
    i + 1 ∈ (end_marker_test data i head).2 := by
  unfold end_marker_test
  rw [if_pos h]
  split <;> simp

/-- Supporting C4: when no end marker begins at any of the next `k` indices and the byte at the
index after them is `FF`, the loop run for `k + 1` iterations reads one index further. -/
theorem scan_loop_reads_next (data : Memory) :
    ∀ (k : Nat) (st : ScanState), (∀ j, st.i ≤ j → j < st.i + k → ¬ is_end data j) →
      data (st.i + k) = 0xFF → st.i + k + 1 ∈ (scan_loop data (k + 1) st).reads := by
  intro k
  induction k with
  | zero =>
    intro st _ hff
    have hmem := end_marker_test_reads data st.i
    rw [scan_loop_succ]
    dsimp only
    split_ifs
    · simp [hmem _ hff]
    · apply scan_loop_reads_mono; simp [hmem _ hff]
    · simp [hmem _ hff]
    · apply scan_loop_reads_mono; simp [hmem _ hff]
  | succ k ih =>
    intro st hno hff
    have hne : ¬ is_end data st.i := hno st.i (Nat.le_refl _) (by omega)
    have hc2 : ∀ hd, (end_marker_test data st.i hd).1 = false := by
      intro hd
      cases hc : (end_marker_test data st.i hd).1
      · rfl
      · exact absurd ((end_marker_test_true _ _ _).1 hc).1 hne
    have key : ∀ st2 : ScanState, st2.i = st.i + 1 →
        st.i + (k + 1) + 1 ∈ (scan_loop data (k + 1) st2).reads := by
      intro st2 h2
      have h3 := ih st2 (by intro j h1 h3; exact hno j (by omega) (by omega))
        (by rw [h2, ← hff]; congr 1; omega)
      have e : st2.i + k + 1 = st.i + (k + 1) + 1 := by omega
      rw [← e]; exact h3
    rw [scan_loop_succ]
    dsimp only
    rw [hc2]
    simp only [Bool.false_eq_true, if_false]
    exact key _ rfl

/-- Supporting C4: on every buffer of capacity `N > 0` without an end marker wholly inside it
and with `FF` as its last byte, the scan reads index `N`. -/
theorem jpeg_scan_reads_index_N (N : Nat) (data : Memory) (hN : 0 < N)
    (hno : ∀ j, j + 1 < N → ¬ is_end data j) (hff : data (N - 1) = 0xFF) :
    N ∈ (jpeg_scan N data).reads := by
  obtain ⟨k, rfl⟩ : ∃ k, N = k + 1 := ⟨N - 1, by omega⟩
  have := scan_loop_reads_next data k scan_init
    (by intro j _ h2; exact hno j (by simp [scan_init] at h2; omega))
    (by simpa [scan_init] using hff)
  simpa [jpeg_scan, scan_init] using this

/-! ## Claims on the marker scan -/

/-- C1: a buffer of capacity `N` with exactly one start marker, at `s`, and exactly one end
marker, at `e`, both wholly inside the buffer and `s < e`, is scanned to start offset `s`
and length `e - s + 2`. -/
theorem jpeg_scan_single_pair (N : Nat) (data : Memory) (s e : Nat)
    (hN : N < UINT32_MOD)
    (hs : is_start data s) (hsN : s + 2 < N)
    (hs_only : ∀ j, j + 2 < N → is_start data j → j = s)
    (he : is_end data e) (heN : e + 1 < N)
    (he_only : ∀ j, j + 1 < N → is_end data j → j = e)
    (hse : s < e) :
    (jpeg_scan N data).base_address = some s ∧ (jpeg_scan N data).jpgstart = s ∧
      (jpeg_scan N data).length = e - s + 2 := by
  have h := scan_loop_finds data s s e hs
    (fun j hj hj2 => by have := hs_only j (by omega) hj2; omega)
    he hse
    (fun j hj1 hj2 hj3 => by have := he_only j (by omega) hj3; omega)
    hs hse
    (fun j hj1 hj2 hj3 => by have := hs_only j (by omega) hj3; omega)
    N scan_init (by simp [scan_init]; omega) (by simp [scan_init])
    (by intro _; simp [scan_init]) (by intro h; cases h)
  obtain ⟨a, _, c, d, _⟩ := h
  refine ⟨c, a, ?_⟩
  rw [jpeg_scan, d]
  simp only [UINT32_MOD] at hN ⊢
  omega

/-- Witness of C1: the scenario frame `00, FF D8 FF, ten bytes, FF D9, 00...` in a buffer of
capacity 20 gives offset 1 and length 15. -/
theorem jpeg_scan_single_pair_witness :
    (jpeg_scan 20 scenario_frame).base_address = some 1 ∧
      (jpeg_scan 20 scenario_frame).jpgstart = 1 ∧
      (jpeg_scan 20 scenario_frame).length = 15 :=
  jpeg_scan_single_pair 20 scenario_frame 1 14 (by decide) (by decide) (by decide)
    (by intro j hj; have hj2 : j < 18 := by omega
        interval_cases j <;> decide)
    (by decide) (by decide)
    (by intro j hj; have hj2 : j < 19 := by omega
        interval_cases j <;> decide)
    (by decide)

/-- C2, as the code has it: the start offset is the index `s` of the last start marker before
the end marker `e` that stops the scan (the first end marker after the first start marker
`s0`), and the length is `e - s + 2`. -/
theorem jpeg_scan_last_start (N : Nat) (data : Memory) (s0 s e : Nat)
    (hN : N < UINT32_MOD)
    (hs0 : is_start data s0) (hfirst : ∀ j, j < s0 → ¬ is_start data j)
    (he : is_end data e) (hs0e : s0 < e) (heN : e + 1 < N)
    (hnoend : ∀ j, s0 < j → j < e → ¬ is_end data j)
    (hs : is_start data s) (hse : s < e) (hlast : ∀ j, s < j → j < e → ¬ is_start data j) :
    (jpeg_scan N data).base_address = some s ∧ (jpeg_scan N data).jpgstart = s ∧
      (jpeg_scan N data).length = e - s + 2 := by
  have h := scan_loop_finds data s0 s e hs0 hfirst he hs0e hnoend hs hse hlast
    N scan_init (by simp [scan_init]; omega) (by simp [scan_init])
    (by intro _; simp [scan_init]) (by intro h; cases h)
  obtain ⟨a, _, c, d, _⟩ := h
  refine ⟨c, a, ?_⟩
  rw [jpeg_scan, d]
  simp only [UINT32_MOD] at hN ⊢
  omega

/-- Witness of the amended C2: start markers at 0 and 3, end marker at 7, give offset 3 and
length 6. -/
theorem jpeg_scan_last_start_witness :
    (jpeg_scan 12 two_starts_frame).base_address = some 3 ∧
      (jpeg_scan 12 two_starts_frame).jpgstart = 3 ∧
      (jpeg_scan 12 two_starts_frame).length = 6 :=
  jpeg_scan_last_start 12 two_starts_frame 0 3 7 (by decide) (by decide)
    (by intro j hj; omega) (by decide) (by decide) (by decide)
    (by intro j h1 h2; interval_cases j <;> decide)
    (by decide) (by decide)
    (by intro j h1 h2; interval_cases j <;> decide)

/-- Counterexample to C2 as stated: with start markers at 0 and 3 and the first end marker
at 7, the scan does not report the first start marker (offset 0, length 9); it reports
offset 3 and length 6. -/
theorem jpeg_scan_first_start_refuted :
    is_start two_starts_frame 0 ∧ is_start two_starts_frame 3 ∧
      (∀ j, j < 7 → ¬ is_end two_starts_frame j) ∧ is_end two_starts_frame 7 ∧
      ¬ ((jpeg_scan 12 two_starts_frame).jpgstart = 0 ∧
          (jpeg_scan 12 two_starts_frame).length = 7 - 0 + 2) ∧
      (jpeg_scan 12 two_starts_frame).jpgstart = 3 ∧
      (jpeg_scan 12 two_starts_frame).length = 6 := by
  refine ⟨by decide, by decide, ?_, by decide, by decide, by decide, by decide⟩
  intro j hj
  interval_cases j <;> decide

/-- C3 at its failing input: the 8-byte buffer `FF D8 FF 00 00 00 00 FF` holds a start marker
and no end marker, yet with the byte `D9` behind the buffer the scan returns length 9. -/
theorem jpeg_scan_trailing_ff_length :
    is_start trailing_ff_frame 0 ∧
      (∀ j, j + 1 < 8 → ¬ is_end trailing_ff_frame j) ∧
      (jpeg_scan 8 trailing_ff_frame).length = 9 := by
  refine ⟨by decide, ?_, by decide⟩
  intro j hj
  have hj2 : j < 7 := by omega
  interval_cases j <;> decide

/-- C4 at its failing input: on the 4-byte buffer `00 00 00 FF` the scan reads index 4; on the
4-byte buffer `00 00 FF D8` it reads index 4 and, with `FF` there behind the buffer, takes
the window crossing the end as a start marker; on the 8-byte buffer `FF D8 FF 00 00 00 00 FF`
with `D9` behind it, it reads index 8 and matches the end marker crossing the end. -/
theorem jpeg_scan_reads_past_end :
    4 ∈ (jpeg_scan 4 last_ff_frame).reads ∧
      4 ∈ (jpeg_scan 4 crossing_start_frame).reads ∧
      (jpeg_scan 4 crossing_start_frame).head = true ∧
      (jpeg_scan 4 crossing_start_frame).jpgstart = 2 ∧
      8 ∈ (jpeg_scan 8 trailing_ff_frame).reads ∧
      (jpeg_scan 8 trailing_ff_frame).i = 7 ∧
      (jpeg_scan 8 trailing_ff_frame).length = 9 := by
  decide

/-- C10: a nonzero scan length `L` with start offset `s` has `FF D8 FF` at `s`, `FF D9` at
`s + L - 2`, and `L ≥ 4`. -/
theorem jpeg_scan_result_wellformed (N : Nat) (data : Memory) (hN : N < UINT32_MOD)
    (hL : (jpeg_scan N data).length ≠ 0) :
    (jpeg_scan N data).base_address = some (jpeg_scan N data).jpgstart ∧
      data (jpeg_scan N data).jpgstart = 0xFF ∧
      data ((jpeg_scan N data).jpgstart + 1) = 0xD8 ∧
      data ((jpeg_scan N data).jpgstart + 2) = 0xFF ∧
      data ((jpeg_scan N data).jpgstart + (jpeg_scan N data).length - 2) = 0xFF ∧
      data ((jpeg_scan N data).jpgstart + (jpeg_scan N data).length - 1) = 0xD9 ∧
      4 ≤ (jpeg_scan N data).length := by
  obtain ⟨a, b, c, d, e, f⟩ := jpeg_scan_nonzero N data hL
  have hlen : (jpeg_scan N data).length =
      (jpeg_scan N data).i - (jpeg_scan N data).jpgstart + 2 := by
    rw [e] at hL ⊢
    simp only [UINT32_MOD] at hN hL ⊢
    omega
  have h1 : (jpeg_scan N data).jpgstart + (jpeg_scan N data).length - 2 =
      (jpeg_scan N data).i := by omega
  have h2 : (jpeg_scan N data).jpgstart + (jpeg_scan N data).length - 1 =
      (jpeg_scan N data).i + 1 := by omega
  refine ⟨f, a.1, a.2.1, a.2.2, ?_, ?_, by omega⟩
  · rw [h1]; exact b.1
  · rw [h2]; exact b.2

/-- Witness of C10 on the scenario frame. -/
theorem jpeg_scan_result_wellformed_witness :
    (jpeg_scan 20 scenario_frame).base_address = some (jpeg_scan 20 scenario_frame).jpgstart ∧
      scenario_frame (jpeg_scan 20 scenario_frame).jpgstart = 0xFF ∧
      scenario_frame ((jpeg_scan 20 scenario_frame).jpgstart + 1) = 0xD8 ∧
      scenario_frame ((jpeg_scan 20 scenario_frame).jpgstart + 2) = 0xFF ∧
      scenario_frame ((jpeg_scan 20 scenario_frame).jpgstart +
        (jpeg_scan 20 scenario_frame).length - 2) = 0xFF ∧
      scenario_frame ((jpeg_scan 20 scenario_frame).jpgstart +
        (jpeg_scan 20 scenario_frame).length - 1) = 0xD9 ∧
      4 ≤ (jpeg_scan 20 scenario_frame).length :=
  jpeg_scan_result_wellformed 20 scenario_frame (by decide) (by decide)

/-! ## Lemmas on the file name -/

theorem digitChar_value (k : Nat) (hk : k < 10) : (Nat.digitChar k).toNat - 48 = k := by
  interval_cases k <;> rfl

theorem digitChar_ne_minus (k : Nat) (hk : k < 10) : Nat.digitChar k ≠ '-' := by
  interval_cases k <;> decide

theorem toDigitsCore_append (fuel : Nat) : ∀ (n : Nat) (ds : List Char),
    Nat.toDigitsCore 10 fuel n ds = Nat.toDigitsCore 10 fuel n [] ++ ds := by
  induction fuel with
  | zero => intro n ds; simp [Nat.toDigitsCore]
  | succ fuel ih =>
    intro n ds
    simp only [Nat.toDigitsCore]
    by_cases h : n / 10 = 0
    · simp [h]
    · simp only [h, if_false]
      rw [ih (n / 10) (Nat.digitChar (n % 10) :: ds), ih (n / 10) [Nat.digitChar (n % 10)]]
      simp

theorem digits_value_snoc (cs : List Char) (c : Char) :
    digits_value (cs ++ [c]) = 10 * digits_value cs + (c.toNat - 48) := by
  simp [digits_value, List.foldl_append]

theorem digits_value_toDigitsCore (fuel : Nat) : ∀ (n : Nat), n < fuel →
    digits_value (Nat.toDigitsCore 10 fuel n []) = n := by
  induction fuel with
  | zero => intro n hn; omega
  | succ fuel ih =>
    intro n hn
    simp only [Nat.toDigitsCore]
    by_cases h : n / 10 = 0
    · simp only [h, if_true]
      have h1 : n % 10 = n := by omega
      have h2 := digitChar_value (n % 10) (Nat.mod_lt _ (by decide))
      rw [h1] at h2 ⊢
      simpa [digits_value] using h2
    · simp only [h, if_false]
      rw [toDigitsCore_append, digits_value_snoc, ih (n / 10) (by omega),
        digitChar_value (n % 10) (Nat.mod_lt _ (by decide))]
      omega

theorem digits_value_toDigits (n : Nat) : digits_value (Nat.toDigits 10 n) = n :=
  digits_value_toDigitsCore (n + 1) n (Nat.lt_succ_self n)

theorem toDigitsCore_no_minus (fuel : Nat) : ∀ (n : Nat) (ds : List Char),
    '-' ∉ ds → '-' ∉ Nat.toDigitsCore 10 fuel n ds := by
  induction fuel with
  | zero => intro n ds h; simpa [Nat.toDigitsCore] using h
  | succ fuel ih =>
    intro n ds hds
    have hd : '-' ∉ Nat.digitChar (n % 10) :: ds := by
      intro hmem
      rcases List.mem_cons.1 hmem with h | h
      · exact digitChar_ne_minus (n % 10) (Nat.mod_lt _ (by decide)) h.symm
      · exact hds h
    simp only [Nat.toDigitsCore]
    by_cases h : n / 10 = 0
    · simpa [h] using hd
    · simp only [h, if_false]
      exact ih _ _ hd

theorem format_d_injective (a b : Int) (h : format_d a = format_d b) : a = b := by
  unfold format_d at h
  have hnm : ∀ n, '-' ∉ Nat.toDigits 10 n := fun n =>
    toDigitsCore_no_minus _ _ _ (by simp)
  by_cases ha : a < 0 <;> by_cases hb : b < 0
  · simp only [ha, hb, if_true] at h
    have h2 := congrArg digits_value (List.cons_injective h)
    rw [digits_value_toDigits, digits_value_toDigits] at h2
    omega
  · simp only [ha, hb, if_true, if_false] at h
    exact absurd (h ▸ List.mem_cons_self _ _) (hnm _)
  · simp only [ha, hb, if_true, if_false] at h
    exact absurd (h ▸ List.mem_cons_self _ _) (hnm _)
  · simp only [ha, hb, if_false] at h
    have h2 := congrArg digits_value h
    rw [digits_value_toDigits, digits_value_toDigits] at h2
    omega

theorem jpeg_path_injective (a b : Int) (h : jpeg_path a = jpeg_path b) : a = b := by
  unfold jpeg_path filename_chars at h
  have h1 : "/fs/jpeg_".toList ++ format_d a ++ ".jpg".toList =
      "/fs/jpeg_".toList ++ format_d b ++ ".jpg".toList := congrArg String.data h
  exact format_d_injective a b (List.append_cancel_left (List.append_cancel_right h1))

theorem toDigits_length_le (n : Nat) (hn : n < 1000000) : (Nat.toDigits 10 n).length ≤ 6 :=
  Nat.toDigitsCore_length 10 (by decide) (n + 1) n 6 (by simpa using hn) (by decide)

theorem filename_fits (jpeg_id : Int) (h0 : 0 ≤ jpeg_id) (h1 : jpeg_id ≤ 999999) :
    (filename_chars jpeg_id).length + 1 ≤ FILENAME_SIZE := by
  have hlen := toDigits_length_le jpeg_id.toNat (by omega)
  have hneg : ¬ jpeg_id < 0 := by omega
  simp only [filename_chars, format_d, hneg, if_false, List.length_append, FILENAME_SIZE]
  have h9 : "/fs/jpeg_".toList.length = 9 := by decide
  have h4 : ".jpg".toList.length = 4 := by decide
  omega


/-! ## The storage step -/

/-- The scan leaves `base_address` at `NULL` only together with length 0. -/
theorem jpeg_scan_base_none (N : Nat) (data : Memory)
    (h : (jpeg_scan N data).base_address = none) : (jpeg_scan N data).length = 0 := by
  by_contra hL
  have := (jpeg_scan_nonzero N data hL).2.2.2.2.2
  rw [h] at this
  cases this

/-- The scan length is at most `N + 1`. -/
theorem jpeg_scan_length_le (N : Nat) (data : Memory) (hN : N < UINT32_MOD) :
    (jpeg_scan N data).length ≤ N + 1 := by
  by_cases hL : (jpeg_scan N data).length = 0
  · omega
  · obtain ⟨_, _, c, d, e, _⟩ := jpeg_scan_nonzero N data hL
    rw [e]
    simp only [UINT32_MOD] at hN ⊢
    omega

/-- With `fopen` succeeding, `jpeg_processing` goes through the write, the close and the
directory listing. -/
theorem jpeg_processing_of_fopen_ok (N : Nat) (data : Memory) (jpeg_id : Int) (files : Files)
    (libc : Libc) (hopen : libc.fopen_ok = true) :
    jpeg_processing N data jpeg_id files libc =
      (let sc := jpeg_scan N data
       let path := jpeg_path jpeg_id
       let written := min libc.fwrite_room sc.length
       let requested := payload_bytes data (sc.base_address.getD 0) sc.length
       let err := int32_wrap written
       let t4 : List Event :=
        [Event.fopen path "w" true, Event.print_result true] ++
          [Event.fwrite requested written, Event.print_written err] ++
          (if err < 0 then [Event.print_result false, Event.print_error (-libc.fwrite_errno)]
           else []) ++
          [Event.fclose libc.fclose_result] ++
          [Event.opendir "/fs/" libc.opendir_ok, Event.print_result libc.opendir_ok]
       if libc.opendir_ok = false then
         { status := .halted,
           filename_overrun := decide (FILENAME_SIZE < (filename_chars jpeg_id).length + 1),
           length := sc.length,
           files := (files.create path).append path (requested.take written),
           trace := t4 ++ [Event.fatal_error (-libc.opendir_errno)] }
       else
         { status := .running,
           filename_overrun := decide (FILENAME_SIZE < (filename_chars jpeg_id).length + 1),
           length := sc.length,
           files := (files.create path).append path (requested.take written),
           trace := t4 ++ libc.dir_entries.map Event.print_entry }) := by
  unfold jpeg_processing
  simp only [hopen, if_true, Bool.true_eq_false, if_false, List.append_nil]
  cases hb : (jpeg_scan N data).base_address with
  | some b => rfl
  | none =>
    have h0 := jpeg_scan_base_none N data hb
    simp only [h0]

/-- Files after `jpeg_processing`, with `fopen` succeeding. -/
theorem jpeg_processing_files (N : Nat) (data : Memory) (jpeg_id : Int) (files : Files)
    (libc : Libc) (hopen : libc.fopen_ok = true) :
    (jpeg_processing N data jpeg_id files libc).files =
      (files.create (jpeg_path jpeg_id)).append (jpeg_path jpeg_id)
        ((payload_bytes data ((jpeg_scan N data).base_address.getD 0)
          (jpeg_scan N data).length).take (min libc.fwrite_room (jpeg_scan N data).length)) := by
  rw [jpeg_processing_of_fopen_ok N data jpeg_id files libc hopen]
  cases libc.opendir_ok <;> rfl

/-- The first event of `jpeg_processing`, with `fopen` succeeding, is the call
`fopen(path, "w")`. -/
theorem jpeg_processing_trace_head (N : Nat) (data : Memory) (jpeg_id : Int) (files : Files)
    (libc : Libc) (hopen : libc.fopen_ok = true) :
    Event.fopen (jpeg_path jpeg_id) "w" true ∈
      (jpeg_processing N data jpeg_id files libc).trace := by
  rw [jpeg_processing_of_fopen_ok N data jpeg_id files libc hopen]
  cases libc.opendir_ok <;> exact List.mem_append_left _ (List.mem_append_left _
    (List.mem_append_left _ (List.mem_append_left _ (List.mem_append_left _
      (List.mem_cons_self _ _)))))

/-- The value returned by `jpeg_processing` is the scan length. -/
theorem jpeg_processing_length (N : Nat) (data : Memory) (jpeg_id : Int) (files : Files)
    (libc : Libc) :
    (jpeg_processing N data jpeg_id files libc).length = (jpeg_scan N data).length := by
  unfold jpeg_processing
  dsimp only
  split
  · rfl
  · split
    · rfl
    · split <;> rfl

/-- The name for counter 1000000 has 20 characters, one more than `char filename[20]` holds
with its terminator; the program goes on with it and stores the payload under that name. -/
theorem jpeg_processing_long_name :
    jpeg_path 1000000 = "/fs/jpeg_1000000.jpg" ∧
      (filename_chars 1000000).length + 1 = 21 ∧ FILENAME_SIZE = 20 ∧
      (jpeg_processing 20 scenario_frame 1000000 no_files libc_ok).filename_overrun = true ∧
      (jpeg_processing 20 scenario_frame 1000000 no_files libc_ok).status = .running ∧
      (jpeg_processing 20 scenario_frame 1000000 no_files libc_ok).files
        "/fs/jpeg_1000000.jpg" =
        some [0xFF, 0xD8, 0xFF, 1, 2, 3, 4, 5, 6, 7, 8, 9, 10, 0xFF, 0xD9] := by
  decide

/-- Counters from 0 to 999999 give a name that fits `char filename[20]`. -/
theorem jpeg_processing_no_overrun (N : Nat) (data : Memory) (jpeg_id : Int)
    (files : Files) (libc : Libc) (h0 : 0 ≤ jpeg_id) (h1 : jpeg_id ≤ 999999) :
    (jpeg_processing N data jpeg_id files libc).filename_overrun = false := by
  have hfit := filename_fits jpeg_id h0 h1
  have h2 : ¬ (FILENAME_SIZE < (filename_chars jpeg_id).length + 1) := by omega
  unfold jpeg_processing
  dsimp only
  split
  · exact decide_eq_false h2
  · split
    · exact decide_eq_false h2
    · split <;> exact decide_eq_false h2

/-! ## `application` and the sequence counter -/

/-- An `int` in range is not changed by wrapping. -/
theorem int32_wrap_of_range (x : Int) (hlo : -2147483648 ≤ x) (hhi : x ≤ 2147483647) :
    int32_wrap x = x := by
  unfold int32_wrap
  omega

/-- Every call of `application` stores `jpeg_id + 1` (as an `int`) in the counter. -/
theorem application_jpeg_id (N : Nat) (sys : System) (c : Capture) :
    (application N sys c).jpeg_id = int32_wrap (sys.jpeg_id + 1) := by
  unfold application
  dsimp only
  split
  · split <;> rfl
  · rfl

/-- With a payload present, `application` takes over the status of `jpeg_processing`. -/
theorem application_status (N : Nat) (sys : System) (data : Memory) (libc : Libc) :
    (application N sys { jpeg_picture := true, data := data, libc := libc }).status =
      (jpeg_processing N data (int32_wrap (sys.jpeg_id + 1)) sys.files libc).status := by
  unfold application
  dsimp only
  rw [if_pos rfl]
  split
  · next h => rw [h]
  · rfl

/-- With a payload present, the files after `application` are those after `jpeg_processing`. -/
theorem application_files (N : Nat) (sys : System) (data : Memory) (libc : Libc) :
    (application N sys { jpeg_picture := true, data := data, libc := libc }).files =
      (jpeg_processing N data (int32_wrap (sys.jpeg_id + 1)) sys.files libc).files := by
  unfold application
  dsimp only
  rw [if_pos rfl]
  split <;> rfl

/-- With a payload present and `jpeg_processing` returning, the console gets its trace and the
line `JPEG <jpeg_id> stored in RAM: <length> bytes`. -/
theorem application_console (N : Nat) (sys : System) (data : Memory) (libc : Libc)
    (h : (jpeg_processing N data (int32_wrap (sys.jpeg_id + 1)) sys.files libc).status
      = .running) :
    (application N sys { jpeg_picture := true, data := data, libc := libc }).console =
      sys.console ++
        (jpeg_processing N data (int32_wrap (sys.jpeg_id + 1)) sys.files libc).trace ++
        [Event.print_stored (int32_wrap (sys.jpeg_id + 1))
          (jpeg_processing N data (int32_wrap (sys.jpeg_id + 1)) sys.files libc).length,
         Event.print_complete] := by
  unfold application
  dsimp only
  rw [if_pos rfl]
  split
  · rfl
  · next hne => exact absurd h (hne)

/-- With `fopen` and `opendir` succeeding, `jpeg_processing` returns. -/
theorem jpeg_processing_running (N : Nat) (data : Memory) (jpeg_id : Int) (files : Files)
    (libc : Libc) (hopen : libc.fopen_ok = true) (hdir : libc.opendir_ok = true) :
    (jpeg_processing N data jpeg_id files libc).status = .running := by
  rw [jpeg_processing_of_fopen_ok N data jpeg_id files libc hopen]
  dsimp only
  rw [hdir]
  rfl

/-- A running system executes `application` for the next capture. -/
theorem run_cons_running (N : Nat) (c : Capture) (cs : List Capture) (sys : System)
    (h : sys.status = .running) : run N (c :: cs) sys = run N cs (application N sys c) := by
  rw [run]
  split
  · rfl
  · next hne => exact absurd h hne

/-- The counter after a sequence of executed calls of `application`. -/
theorem run_jpeg_id (N : Nat) : ∀ (cs : List Capture) (sys : System),
    -2147483648 ≤ sys.jpeg_id → sys.jpeg_id + cs.length ≤ 2147483647 →
    (∀ k, k < cs.length → (run N (cs.take k) sys).status = .running) →
    (run N cs sys).jpeg_id = sys.jpeg_id + cs.length := by
  intro cs
  induction cs with
  | nil => intro sys _ _ _; simp [run]
  | cons c cs ih =>
    intro sys hlo hhi hrun
    have h0 : sys.status = .running := by
      have := hrun 0 (by simp)
      simpa [run] using this
    have hid : (application N sys c).jpeg_id = sys.jpeg_id + 1 := by
      rw [application_jpeg_id]
      apply int32_wrap_of_range
      · omega
      · simp only [List.length_cons, Nat.cast_add, Nat.cast_one] at hhi
        omega
    rw [run_cons_running N c cs sys h0, ih (application N sys c)]
    · rw [hid]; simp only [List.length_cons, Nat.cast_add, Nat.cast_one]; omega
    · rw [hid]; omega
    · rw [hid]; simp only [List.length_cons, Nat.cast_add, Nat.cast_one] at hhi; omega
    · intro k hk
      have := hrun (k + 1) (by simp; omega)
      rw [List.take_succ_cons, run_cons_running N c _ sys h0] at this
      exact this


/-- Whenever the payload is absent, or `fopen` and `opendir` succeed, `application` leaves
the system running. -/
theorem application_running (N : Nat) (sys : System) (c : Capture)
    (h : c.jpeg_picture = false ∨ (c.libc.fopen_ok = true ∧ c.libc.opendir_ok = true)) :
    (application N sys c).status = .running := by
  cases hp : c.jpeg_picture with
  | false =>
    unfold application
    dsimp only
    rw [hp]
    rfl
  | true =>
    rcases h with h | ⟨h2, h3⟩
    · rw [hp] at h; cases h
    · have := application_status N sys c.data c.libc
      have hc : c = { jpeg_picture := true, data := c.data, libc := c.libc } := by
        cases c; simp at hp; simp [hp]
      rw [hc]
      rw [this]
      exact jpeg_processing_running N _ _ _ _ h2 h3

/-- C6, as the code has it: when `N` calls of `application` are executed (the system is running
at the start of each) and the `int` counter does not pass `INT_MAX`, the counter afterwards
is its value before plus `N`, and the paths formed from the counter values of two different
attempts differ. -/
theorem run_counter (N : Nat) (cs : List Capture) (sys : System)
    (hlo : -2147483648 ≤ sys.jpeg_id) (hhi : sys.jpeg_id + cs.length ≤ 2147483647)
    (hrun : ∀ k, k < cs.length → (run N (cs.take k) sys).status = .running) :
    (run N cs sys).jpeg_id = sys.jpeg_id + cs.length ∧
      ∀ a b, a < b → b ≤ cs.length →
        jpeg_path (run N (cs.take a) sys).jpeg_id ≠
          jpeg_path (run N (cs.take b) sys).jpeg_id := by
  refine ⟨run_jpeg_id N cs sys hlo hhi hrun, ?_⟩
  intro a b hab hb hpath
  have key : ∀ m, m ≤ cs.length → (run N (cs.take m) sys).jpeg_id = sys.jpeg_id + m := by
    intro m hm
    have hlen : (cs.take m).length = m := by simp [hm]
    have := run_jpeg_id N (cs.take m) sys hlo (by rw [hlen]; omega)
      (by
        intro k hk
        rw [hlen] at hk
        rw [List.take_take, Nat.min_eq_left (Nat.le_of_lt hk)]
        exact hrun k (by omega))
    rw [this, hlen]
  have h := jpeg_path_injective _ _ hpath
  rw [key a (by omega), key b hb] at h
  omega

/-- Witness of the amended C6: three captures (good frame, no payload, frame without markers)
after boot leave the counter at 3, and the first and third attempt use different paths. -/
theorem run_counter_witness :
    (run 20 mixed_captures (boot no_files)).jpeg_id = 0 + 3 ∧
      jpeg_path (run 20 (mixed_captures.take 1) (boot no_files)).jpeg_id ≠
        jpeg_path (run 20 (mixed_captures.take 3) (boot no_files)).jpeg_id :=
  have h := run_counter 20 mixed_captures (boot no_files) (by decide) (by decide) (by decide)
  ⟨h.1, h.2 1 3 (by decide) (by decide)⟩

/-- Counterexample to C6 as stated: one call of `application` with the counter at `INT_MAX`
leaves the system running with the counter at `INT_MIN`, not at its value before plus 1. -/
theorem run_counter_wraps :
    counter_max_system.jpeg_id = 2147483647 ∧
      (run 20 [{ jpeg_picture := false, data := blank_frame, libc := libc_ok }]
        counter_max_system).status = .running ∧
      (run 20 [{ jpeg_picture := false, data := blank_frame, libc := libc_ok }]
        counter_max_system).jpeg_id = -2147483648 ∧
      ¬ ((run 20 [{ jpeg_picture := false, data := blank_frame, libc := libc_ok }]
        counter_max_system).jpeg_id = counter_max_system.jpeg_id + 1) := by
  decide

/-- C7, as the code has it: a capture whose frame holds no start marker followed by an end
marker does not abort after the scan.  With the counter in `0 .. 999998` and `fopen` and
`opendir` succeeding, the file `/fs/jpeg_<jpeg_id + 1>.jpg` is opened in mode `w`, zero bytes
are written, the file exists empty afterwards, the console reports 0 bytes stored, the system
keeps running, and the counter has advanced by one. -/
theorem application_extraction_failure (N : Nat) (data : Memory) (sys : System) (libc : Libc)
    (hnone : ∀ s e, is_start data s → is_end data e → s < e → e < N → False)
    (h0 : 0 ≤ sys.jpeg_id) (h1 : sys.jpeg_id < 999999)
    (hopen : libc.fopen_ok = true) (hdir : libc.opendir_ok = true) :
    (application N sys { jpeg_picture := true, data := data, libc := libc }).jpeg_id =
        sys.jpeg_id + 1 ∧
      (application N sys { jpeg_picture := true, data := data, libc := libc }).status =
        .running ∧
      (application N sys { jpeg_picture := true, data := data, libc := libc }).files
        (jpeg_path (sys.jpeg_id + 1)) = some [] ∧
      Event.fopen (jpeg_path (sys.jpeg_id + 1)) "w" true ∈
        (application N sys { jpeg_picture := true, data := data, libc := libc }).console ∧
      Event.print_stored (sys.jpeg_id + 1) 0 ∈
        (application N sys { jpeg_picture := true, data := data, libc := libc }).console := by
  have hlen : (jpeg_scan N data).length = 0 := jpeg_scan_fails_of_no_pair N data hnone
  have hid : int32_wrap (sys.jpeg_id + 1) = sys.jpeg_id + 1 :=
    int32_wrap_of_range _ (by omega) (by omega)
  have hst := jpeg_processing_running N data (sys.jpeg_id + 1) sys.files libc hopen hdir
  have hfiles := jpeg_processing_files N data (sys.jpeg_id + 1) sys.files libc hopen
  have hcon := application_console N sys data libc (by rw [hid]; exact hst)
  rw [hlen] at hfiles
  rw [hid, jpeg_processing_length, hlen] at hcon
  refine ⟨by rw [application_jpeg_id, hid], by rw [application_status, hid]; exact hst, ?_, ?_, ?_⟩
  · rw [application_files, hid, hfiles]
    simp [Files.create, Files.append, payload_bytes]
  · rw [hcon]
    exact List.mem_append_left _ (List.mem_append_right _
      (jpeg_processing_trace_head N data (sys.jpeg_id + 1) sys.files libc hopen))
  · rw [hcon]
    exact List.mem_append_right _ (List.mem_cons_self _ _)

/-- Witness of the amended C7: the first capture after boot, on a frame without markers,
creates the empty file `/fs/jpeg_1.jpg`. -/
theorem application_extraction_failure_witness :
    (application 20 (boot no_files)
        { jpeg_picture := true, data := blank_frame, libc := libc_ok }).jpeg_id =
        (boot no_files).jpeg_id + 1 ∧
      (application 20 (boot no_files)
        { jpeg_picture := true, data := blank_frame, libc := libc_ok }).status = .running ∧
      (application 20 (boot no_files)
        { jpeg_picture := true, data := blank_frame, libc := libc_ok }).files
        (jpeg_path ((boot no_files).jpeg_id + 1)) = some [] ∧
      Event.fopen (jpeg_path ((boot no_files).jpeg_id + 1)) "w" true ∈
        (application 20 (boot no_files)
          { jpeg_picture := true, data := blank_frame, libc := libc_ok }).console ∧
      Event.print_stored ((boot no_files).jpeg_id + 1) 0 ∈
        (application 20 (boot no_files)
          { jpeg_picture := true, data := blank_frame, libc := libc_ok }).console :=
  application_extraction_failure 20 blank_frame (boot no_files) libc_ok
    (by intro s e hs _ _ _
        have : blank_frame s = 0 := by simp [blank_frame, mem_of]
        have h2 := hs.1
        omega)
    (by decide) (by decide) (by decide) (by decide)

/-- Counterexample to C7 as stated: the frame holds no marker and the scan returns 0, yet the
capture cycle creates the file `/fs/jpeg_1.jpg`, which did not exist before, and reports
`JPEG 1 stored in RAM: 0 bytes`. -/
theorem application_blank_frame_creates_file :
    (∀ i, blank_frame i = 0) ∧ (jpeg_scan 20 blank_frame).length = 0 ∧
      (boot no_files).files "/fs/jpeg_1.jpg" = none ∧
      (application 20 (boot no_files)
        { jpeg_picture := true, data := blank_frame, libc := libc_ok }).files
        "/fs/jpeg_1.jpg" = some [] ∧
      Event.fopen "/fs/jpeg_1.jpg" "w" true ∈
        (application 20 (boot no_files)
          { jpeg_picture := true, data := blank_frame, libc := libc_ok }).console ∧
      Event.print_stored 1 0 ∈
        (application 20 (boot no_files)
          { jpeg_picture := true, data := blank_frame, libc := libc_ok }).console := by
  refine ⟨fun i => by simp [blank_frame, mem_of], by decide, by decide, by decide, by decide,
    by decide⟩


/-! ## Storage failures -/

/-- With `fopen` failing, the trace of `jpeg_processing` is the call, the line `Fail :(` and
the error line; the next step is `fwrite` on the `NULL` stream. -/
theorem jpeg_processing_of_fopen_fail (N : Nat) (data : Memory) (jpeg_id : Int)
    (files : Files) (libc : Libc) (hopen : libc.fopen_ok = false) :
    (jpeg_processing N data jpeg_id files libc).trace =
        [Event.fopen (jpeg_path jpeg_id) "w" false, Event.print_result false,
         Event.print_error (-libc.fopen_errno)] ∧
      (jpeg_processing N data jpeg_id files libc).status =
        .undefined_behaviour .null_stream := by
  unfold jpeg_processing
  simp only [hopen, if_true, Bool.false_eq_true, if_false]
  refine ⟨?_, ?_⟩ <;> first | rfl | trivial

/-- The value stored in `int err` is not negative when the buffer capacity is below `2^31 - 1`. -/
theorem fwrite_err_nonneg (N : Nat) (data : Memory) (room : Nat) (hN : N + 1 < 2147483648) :
    ¬ (int32_wrap ((min room (jpeg_scan N data).length : Nat) : Int) < 0) := by
  have h1 := jpeg_scan_length_le N data (by simp only [UINT32_MOD]; omega)
  have h2 : min room (jpeg_scan N data).length ≤ (jpeg_scan N data).length := Nat.min_le_right _ _
  unfold int32_wrap
  omega

/-- Supporting C8: after a failing `fopen` the program never returns to the dispatcher (the
next step is `fwrite` on the `NULL` stream); and when `fopen` succeeds, whatever `fwrite` and
`fclose` return, no error line is printed and `fwrite`, `fclose` and `opendir` are all
called. -/
theorem jpeg_processing_failures_unhandled (N : Nat) (data : Memory) (jpeg_id : Int)
    (files : Files) (libc : Libc) (hN : N + 1 < 2147483648) :
    (libc.fopen_ok = false →
        Event.print_error (-libc.fopen_errno) ∈
          (jpeg_processing N data jpeg_id files libc).trace ∧
        (jpeg_processing N data jpeg_id files libc).status =
          .undefined_behaviour .null_stream) ∧
      (libc.fopen_ok = true →
        Event.fwrite
            (payload_bytes data ((jpeg_scan N data).base_address.getD 0)
              (jpeg_scan N data).length)
            (min libc.fwrite_room (jpeg_scan N data).length) ∈
          (jpeg_processing N data jpeg_id files libc).trace ∧
        (∀ code, Event.print_error code ∉ (jpeg_processing N data jpeg_id files libc).trace) ∧
        Event.fclose libc.fclose_result ∈ (jpeg_processing N data jpeg_id files libc).trace ∧
        Event.opendir "/fs/" libc.opendir_ok ∈
          (jpeg_processing N data jpeg_id files libc).trace) := by
  have herr := fwrite_err_nonneg N data libc.fwrite_room hN
  refine ⟨?_, ?_⟩
  · intro hopen
    refine ⟨?_, (jpeg_processing_of_fopen_fail N data jpeg_id files libc hopen).2⟩
    rw [(jpeg_processing_of_fopen_fail N data jpeg_id files libc hopen).1]
    exact List.mem_cons_of_mem _ (List.mem_cons_of_mem _ (List.mem_cons_self _ _))
  · intro hopen
    rw [jpeg_processing_of_fopen_ok N data jpeg_id files libc hopen]
    dsimp only
    rw [if_neg herr]
    cases libc.opendir_ok <;> simp

/-- C8 at its failing inputs.  With `fopen` failing (`errno = 28`) the failure is printed, but
the cycle does not end there: the program goes on to `fwrite` on the `NULL` stream and never
returns to the dispatcher, so `application` prints no completion line and the next capture is
not served.  With a write that stores 4 of the 15 payload bytes no failure line is printed,
and `fclose` and `opendir` follow as after a full write. -/
theorem jpeg_processing_failure_goes_on :
    (jpeg_processing 20 scenario_frame 3 no_files libc_fopen_fails).trace =
        [Event.fopen "/fs/jpeg_3.jpg" "w" false, Event.print_result false,
         Event.print_error (-28)] ∧
      (jpeg_processing 20 scenario_frame 3 no_files libc_fopen_fails).status =
        .undefined_behaviour .null_stream ∧
      (application 20 (boot no_files)
        { jpeg_picture := true, data := scenario_frame, libc := libc_fopen_fails }).status =
        .undefined_behaviour .null_stream ∧
      Event.print_complete ∉ (application 20 (boot no_files)
        { jpeg_picture := true, data := scenario_frame, libc := libc_fopen_fails }).console ∧
      (run 20
        [{ jpeg_picture := true, data := scenario_frame, libc := libc_fopen_fails },
         { jpeg_picture := true, data := scenario_frame, libc := libc_ok }]
        (boot no_files)).jpeg_id = 1 ∧
      (jpeg_processing 20 scenario_frame 3 no_files libc_short_write).trace =
        [Event.fopen "/fs/jpeg_3.jpg" "w" true, Event.print_result true,
         Event.fwrite [0xFF, 0xD8, 0xFF, 1, 2, 3, 4, 5, 6, 7, 8, 9, 10, 0xFF, 0xD9] 4,
         Event.print_written 4, Event.fclose 0,
         Event.opendir "/fs/" true, Event.print_result true] ∧
      (jpeg_processing 20 scenario_frame 3 no_files libc_short_write).files "/fs/jpeg_3.jpg" =
        some [0xFF, 0xD8, 0xFF, 1] ∧
      (jpeg_processing 20 scenario_frame 3 no_files libc_short_write).status = .running := by
  decide

end ZestCamera
